import Mathlib

/-!
# Verification of `fn_keys_helper.py`

A shallow embedding of the fn-keys helper program: the JSON persistence layer
(`load_fn_keys` / `save_fn_keys`, modelling Python's `json.dump(-, indent=2)`
and `json.load` for the relevant fragment), the settings dialog
(`SettingsDialog.__init__` / `get_updated_keys`), the window rendering
(`__init__` label construction and `update_key_labels`), and the
`show_settings` control flow.

Python strings are modelled as `List Char`; a Python dict preserving insertion
order is modelled as an association list with unique keys.
-/

/-- A Python string, as a list of unicode code points. -/
abbrev PyStr := List Char

/-- A Python dict from key identifier to description, in insertion order. -/
abbrev KeyDescriptionMap := List (PyStr × PyStr)

/-- A Python value that `json.load` can produce (floats omitted: the config
file written by this program never contains numbers). -/
inductive Json where
  | obj : List (PyStr × Json) → Json
  | arr : List Json → Json
  | str : PyStr → Json
  | num : Int → Json
  | bool : Bool → Json
  | null : Json
deriving Repr

/-- View a string-to-string dict as the Python value `json.load` would return
for it. -/
def mapToJson (m : KeyDescriptionMap) : Json :=
  Json.obj (m.map (fun p => (p.1, Json.str p.2)))

/-! ## Serialization: `json.dump(fn_keys, f, indent=2)` -/

/-- Lowercase hex digit, as CPython's `json` encoder emits in `\uXXXX`. -/
def hexDigitChar (n : Nat) : Char :=
  if n < 10 then Char.ofNat (48 + n) else Char.ofNat (87 + n)

/-- The four hex digits of `n < 0x10000`, most significant first. -/
def hex4 (n : Nat) : List Char :=
  [hexDigitChar (n / 4096 % 16), hexDigitChar (n / 256 % 16),
   hexDigitChar (n / 16 % 16), hexDigitChar (n % 16)]

/-- `\uXXXX` escape for a code unit `n < 0x10000`. -/
def uEscape (n : Nat) : List Char :=
  '\\' :: 'u' :: hex4 n

/-- How CPython's `json.dump` (with the default `ensure_ascii=True`) writes a
single character inside a string literal: short escapes for `"`, `\` and the
common control characters, `\uXXXX` for the other control characters and all
code points above `0x7e` (a surrogate pair when above `0xffff`), and the
character itself otherwise. -/
def escapeChar (c : Char) : List Char :=
  if c = '"' then ['\\', '"']
  else if c = '\\' then ['\\', '\\']
  else if c = '\x08' then ['\\', 'b']
  else if c = '\x09' then ['\\', 't']
  else if c = '\x0a' then ['\\', 'n']
  else if c = '\x0c' then ['\\', 'f']
  else if c = '\x0d' then ['\\', 'r']
  else if c.toNat < 0x20 then uEscape c.toNat
  else if c.toNat < 0x7f then [c]
  else if c.toNat < 0x10000 then uEscape c.toNat
  else uEscape (0xD800 + (c.toNat - 0x10000) / 0x400) ++
       uEscape (0xDC00 + (c.toNat - 0x10000) % 0x400)

/-- A JSON string literal for `s`, quotes included. -/
def escapeString (s : PyStr) : PyStr :=
  '"' :: s.flatMap escapeChar ++ ['"']

/-- The `indent=2` body lines of `json.dump`: each entry is
`␣␣"key": "value"`, entries separated by `,\n`. -/
def dumpEntries : KeyDescriptionMap → PyStr
  | [] => []
  | [(k, v)] => "  ".data ++ escapeString k ++ ": ".data ++ escapeString v
  | (k, v) :: rest =>
      "  ".data ++ escapeString k ++ ": ".data ++ escapeString v ++
      ",\n".data ++ dumpEntries rest

/-- The exact file content `json.dump(m, f, indent=2)` writes: `{}` for an
empty dict, otherwise `{\n` + entries + `\n}`. -/
def json_dump (m : KeyDescriptionMap) : PyStr :=
  if m.isEmpty then "\x7b\x7d".data
  else "\x7b\n".data ++ dumpEntries m ++ "\n\x7d".data

/-! ## Parsing: `json.load(f)` -/

/-- The whitespace characters `json` skips between tokens. -/
def isWsChar (c : Char) : Bool :=
  c = ' ' || c = '\t' || c = '\n' || c = '\r'

/-- Drop leading JSON whitespace. -/
def skipWs : List Char → List Char
  | [] => []
  | c :: rest => if isWsChar c then skipWs rest else c :: rest

/-- Value of one hex digit, either case. -/
def hexVal (c : Char) : Option Nat :=
  if '0' ≤ c ∧ c ≤ '9' then some (c.toNat - 48)
  else if 'a' ≤ c ∧ c ≤ 'f' then some (c.toNat - 87)
  else if 'A' ≤ c ∧ c ≤ 'F' then some (c.toNat - 55)
  else none

/-- Read exactly four hex digits. -/
def parseHex4 : List Char → Option (Nat × List Char)
  | a :: b :: c :: d :: rest =>
    match hexVal a, hexVal b, hexVal c, hexVal d with
    | some x, some y, some z, some w => some (x * 4096 + y * 256 + z * 16 + w, rest)
    | _, _, _, _ => none
  | _ => none

/-- Decode one backslash escape (the backslash already consumed, `e` the
character after it): the short escapes, and `\uXXXX` with surrogate-pair
combination as CPython's scanner performs it. -/
def decodeEscape (e : Char) (rest : List Char) : Option (Char × List Char) :=
  if e = '"' then some ('"', rest)
  else if e = '\\' then some ('\\', rest)
  else if e = '/' then some ('/', rest)
  else if e = 'b' then some ('\x08', rest)
  else if e = 'f' then some ('\x0c', rest)
  else if e = 'n' then some ('\x0a', rest)
  else if e = 'r' then some ('\x0d', rest)
  else if e = 't' then some ('\x09', rest)
  else if e = 'u' then
    match parseHex4 rest with
    | none => none
    | some (n, rest') =>
      if 0xD800 ≤ n ∧ n ≤ 0xDBFF then
        match rest' with
        | '\\' :: 'u' :: r2 =>
          match parseHex4 r2 with
          | some (n2, rest'') =>
            if 0xDC00 ≤ n2 ∧ n2 ≤ 0xDFFF then
              some (Char.ofNat (0x10000 + (n - 0xD800) * 0x400 + (n2 - 0xDC00)), rest'')
            else none
          | none => none
        | _ => none
      else if 0xDC00 ≤ n ∧ n ≤ 0xDFFF then none
      else some (Char.ofNat n, rest')
  else none

/-- Parse the body of a string literal (the opening quote already consumed),
up to and past the closing quote. Strict mode: an unescaped control character
is an error. The fuel bounds the number of decoded characters. -/
def parseStringBody : Nat → List Char → Option (List Char × List Char)
  | 0, _ => none
  | _ + 1, [] => none
  | fuel + 1, c :: rest =>
    if c = '"' then some ([], rest)
    else if c = '\\' then
      match rest with
      | [] => none
      | e :: rest' =>
        match decodeEscape e rest' with
        | none => none
        | some (ch, rest'') =>
          (parseStringBody fuel rest'').map (fun p => (ch :: p.1, p.2))
    else if c.toNat < 0x20 then none
    else (parseStringBody fuel rest).map (fun p => (c :: p.1, p.2))

/-- Digits of a decimal literal, value accumulated. -/
def parseDigits : List Char → Nat → Option (Nat × List Char)
  | [], acc => some (acc, [])
  | c :: rest, acc =>
    if '0' ≤ c ∧ c ≤ '9' then
      match parseDigits rest (acc * 10 + (c.toNat - 48)) with
      | some r => some r
      | none => none
    else some (acc, c :: rest)

/-- Integer literal, with optional leading minus. -/
def parseIntLit : List Char → Option (Int × List Char)
  | '-' :: c :: rest =>
    if '0' ≤ c ∧ c ≤ '9' then
      (parseDigits rest (c.toNat - 48)).map (fun p => (-(p.1 : Int), p.2))
    else none
  | c :: rest =>
    if '0' ≤ c ∧ c ≤ '9' then
      (parseDigits rest (c.toNat - 48)).map (fun p => ((p.1 : Int), p.2))
    else none
  | [] => none

/-- Update a dict at a key, as `d[k] = v` does: replace the value in place if
the key is present, append otherwise. -/
def dictInsert (m : List (PyStr × Json)) (k : PyStr) (v : Json) : List (PyStr × Json) :=
  match m with
  | [] => [(k, v)]
  | (k', v') :: t => if k' = k then (k', v) :: t else (k', v') :: dictInsert t k v

/-- Build the dict `json.load` returns from the parsed member list: later
duplicate keys overwrite earlier values in place. -/
def mkObj (members : List (PyStr × Json)) : Json :=
  Json.obj (members.foldl (fun acc p => dictInsert acc p.1 p.2) [])

mutual

/-- Recursive-descent JSON value parser, fuel-bounded. Mirrors `json.load` on
objects, arrays, strings, integers, `true`, `false` and `null`. -/
def parseValue : Nat → List Char → Option (Json × List Char)
  | 0, _ => none
  | fuel + 1, s =>
    match skipWs s with
    | [] => none
    | c :: rest =>
      if c = '{' then
        match skipWs rest with
        | '}' :: r => some (Json.obj [], r)
        | _ => (parseMembers fuel rest).map (fun p => (mkObj p.1, p.2))
      else if c = '[' then
        match skipWs rest with
        | ']' :: r => some (Json.arr [], r)
        | _ => (parseElements fuel rest).map (fun p => (Json.arr p.1, p.2))
      else if c = '"' then
        (parseStringBody rest.length rest).map (fun p => (Json.str p.1, p.2))
      else if c = 't' then
        match rest with
        | 'r' :: 'u' :: 'e' :: r => some (Json.bool true, r)
        | _ => none
      else if c = 'f' then
        match rest with
        | 'a' :: 'l' :: 's' :: 'e' :: r => some (Json.bool false, r)
        | _ => none
      else if c = 'n' then
        match rest with
        | 'u' :: 'l' :: 'l' :: r => some (Json.null, r)
        | _ => none
      else
        (parseIntLit (c :: rest)).map (fun p => (Json.num p.1, p.2))

/-- Parse `"key": value` members from the first key on, past the closing
brace. -/
def parseMembers : Nat → List Char → Option (List (PyStr × Json) × List Char)
  | 0, _ => none
  | fuel + 1, s =>
    match skipWs s with
    | '"' :: rest =>
      match parseStringBody rest.length rest with
      | none => none
      | some (k, r1) =>
        match skipWs r1 with
        | ':' :: r2 =>
          match parseValue fuel r2 with
          | none => none
          | some (v, r3) =>
            match skipWs r3 with
            | ',' :: r4 => (parseMembers fuel r4).map (fun p => ((k, v) :: p.1, p.2))
            | '}' :: r4 => some ([(k, v)], r4)
            | _ => none
        | _ => none
    | _ => none

/-- Parse array elements from the first element on, past the closing
bracket. -/
def parseElements : Nat → List Char → Option (List Json × List Char)
  | 0, _ => none
  | fuel + 1, s =>
    match parseValue fuel s with
    | none => none
    | some (v, r1) =>
      match skipWs r1 with
      | ',' :: r2 => (parseElements fuel r2).map (fun p => (v :: p.1, p.2))
      | ']' :: r2 => some ([v], r2)
      | _ => none

end

/-- `json.load` on a whole file: one value, then only trailing whitespace.
`none` models the scanner raising `JSONDecodeError`. -/
def json_loads (s : List Char) : Option Json :=
  match parseValue (s.length + 1) s with
  | some (v, rest) => if skipWs rest = [] then some v else none
  | none => none

/-! ## The program: `FnKeyWindow` persistence -/

/-- A Python exception escaping a function (the program has no handler above
`load_fn_keys` / `save_fn_keys`, so an `error` terminates the process). -/
inductive PyErr where
  | oserror
deriving Repr, DecidableEq

/-- The filesystem as the program can observe it: the config file's bytes (or
its absence), and whether the two unguarded OS operations would fail —
`os.makedirs` on the config directory (`get_config_path`) and `open(-, "w")`
(`save_fn_keys`). `open(-, "r")` failing on an existing file is
`openReadFails`. -/
structure FS where
  file : Option (List Char)
  openReadFails : Bool
  openWriteFails : Bool
  mkdirFails : Bool
deriving Repr

/-- The hardcoded `default_keys` dict of `load_fn_keys`, in source order. -/
def default_keys : KeyDescriptionMap :=
  [("F1".data, "Dim Screen".data),
   ("F2".data, "Brighten Screen".data),
   ("F3".data, "??".data),
   ("F4".data, "?".data),
   ("F5".data, "Dim keyboard LED".data),
   ("F6".data, "Brighten keyboard LED".data),
   ("F7".data, "Rewind".data),
   ("F8".data, "Play/Pause".data),
   ("F9".data, "Fastforward".data),
   ("F10".data, "Mute".data),
   ("F11".data, "Lower Volume".data),
   ("F12".data, "Increase Volume".data)]

/-- `get_config_path`: `os.makedirs(config_dir, exist_ok=True)` is not inside
any `try`, so its failure raises. -/
def get_config_path (fs : FS) : Except PyErr Unit :=
  if fs.mkdirFails then .error .oserror else .ok ()

/-- `load_fn_keys`: `get_config_path` first (uncaught); then if the file
exists, `open` + `json.load` inside `try ... except: return default_keys`;
if the file does not exist, `default_keys`. The result is whatever Python
value `json.load` produced — not necessarily a dict. -/
def load_fn_keys (fs : FS) : Except PyErr Json :=
  match get_config_path fs with
  | .error e => .error e
  | .ok () =>
    match fs.file with
    | none => .ok (mapToJson default_keys)
    | some content =>
      if fs.openReadFails then .ok (mapToJson default_keys)
      else
        match json_loads content with
        | some v => .ok v
        | none => .ok (mapToJson default_keys)

/-- `save_fn_keys`: `get_config_path`, then `open(-, "w")` and
`json.dump(fn_keys, f, indent=2)` with no handler anywhere; on success the
file holds exactly the serialization, any prior content gone. -/
def save_fn_keys (fs : FS) (fn_keys : KeyDescriptionMap) : Except PyErr FS :=
  match get_config_path fs with
  | .error e => .error e
  | .ok () =>
    if fs.openWriteFails then .error .oserror
    else .ok { fs with file := some (json_dump fn_keys) }

/-! ## The settings dialog -/

/-- `SettingsDialog` state: `self.fn_keys` (a `.copy()` of the argument) and
`self.edits`, one `QLineEdit` per key holding its current text, created in
map iteration order with the description as initial text. -/
structure SettingsDialog where
  fn_keys : KeyDescriptionMap
  edits : List (PyStr × PyStr)
deriving Repr

/-- `SettingsDialog.__init__`: copy the argument, build one line edit per
`(key, desc)` item pre-filled with `desc`. -/
def SettingsDialog.init (fn_keys : KeyDescriptionMap) : SettingsDialog :=
  { fn_keys := fn_keys, edits := fn_keys }

/-- The user typing text `t` into the line edit of key `k` (a no-op when no
field has that key). -/
def setEditText (d : SettingsDialog) (k t : PyStr) : SettingsDialog :=
  { d with edits := d.edits.map (fun p => if p.1 = k then (p.1, t) else p) }

/-- `get_updated_keys`: a fresh dict `{key: edit.text()}` over the line
edits, in their creation order. -/
def get_updated_keys (d : SettingsDialog) : KeyDescriptionMap :=
  d.edits

/-! ## The window: rendering and `show_settings` -/

/-- The label text built in `FnKeyWindow.__init__` and `update_key_labels`:
`f"<b>{key}:</b> {desc}" if desc else f"<b>{key}:</b> (No function)"`. -/
def renderLabel (key desc : PyStr) : PyStr :=
  if desc ≠ [] then "<b>".data ++ key ++ ":</b> ".data ++ desc
  else "<b>".data ++ key ++ ":</b> (No function)".data

/-- Window state: `self.fn_keys` and `self.key_labels` (key to current label
text, in creation order). -/
structure FnKeyWindow where
  fn_keys : KeyDescriptionMap
  key_labels : List (PyStr × PyStr)
deriving Repr

/-- The label construction loop of `FnKeyWindow.__init__`: one label per
`(key, desc)` item of the loaded map, in the map's iteration order. -/
def windowInit (m : KeyDescriptionMap) : FnKeyWindow :=
  { fn_keys := m, key_labels := m.map (fun p => (p.1, renderLabel p.1 p.2)) }

/-- `dict.get(key, "")`. -/
def dictGetD (m : KeyDescriptionMap) (k : PyStr) : PyStr :=
  match m.lookup k with
  | some v => v
  | none => []

/-- `update_key_labels`: for each existing label (keys fixed at startup),
re-render from `self.fn_keys.get(key, "")`. -/
def update_key_labels (labels : List (PyStr × PyStr)) (fn_keys : KeyDescriptionMap) :
    List (PyStr × PyStr) :=
  labels.map (fun p => (p.1, renderLabel p.1 (dictGetD fn_keys p.1)))

/-- `show_settings`: build the dialog on `self.fn_keys`, let the user edit
(`edits` is the sequence of text changes), then either accept — assign
`get_updated_keys`, save, re-render — or cancel, which runs nothing. -/
def show_settings (w : FnKeyWindow) (fs : FS) (accepted : Bool)
    (edits : List (PyStr × PyStr)) : Except PyErr (FnKeyWindow × FS) :=
  let d := edits.foldl (fun d p => setEditText d p.1 p.2) (SettingsDialog.init w.fn_keys)
  if accepted then
    let newKeys := get_updated_keys d
    match save_fn_keys fs newKeys with
    | .error e => .error e
    | .ok fs' =>
      .ok ({ fn_keys := newKeys,
             key_labels := update_key_labels w.key_labels newKeys }, fs')
  else .ok (w, fs)

/-! ## A store model for aliasing (dialog construction vs. the caller's dict)

Python dicts are mutable heap objects; to state that the dialog never writes
through the caller's reference, dicts live in a store and the dialog holds
references. -/

/-- A store of dict objects; a reference is an index, allocation appends. -/
structure PyStore where
  dicts : List KeyDescriptionMap
deriving Repr

/-- Read a dict through a reference. -/
def PyStore.read (σ : PyStore) (r : Nat) : KeyDescriptionMap :=
  σ.dicts.getD r []

/-- Overwrite the dict a reference points to. -/
def PyStore.write (σ : PyStore) (r : Nat) (m : KeyDescriptionMap) : PyStore :=
  ⟨σ.dicts.set r m⟩

/-- Allocate a fresh dict object. -/
def PyStore.alloc (σ : PyStore) (m : KeyDescriptionMap) : PyStore × Nat :=
  (⟨σ.dicts ++ [m]⟩, σ.dicts.length)

/-- The dialog's two dict-valued attributes, as references. -/
structure DialogRefs where
  fnKeysRef : Nat
  editsRef : Nat
deriving Repr

/-- `SettingsDialog.__init__` in the store model: `self.fn_keys =
fn_keys.copy()` allocates a copy of the caller's dict; the `edits` dict of
line-edit states is likewise a fresh object seeded from the copy. -/
def dialogInitS (σ : PyStore) (fnKeysArg : Nat) : PyStore × DialogRefs :=
  let p1 := σ.alloc (σ.read fnKeysArg)
  let p2 := p1.1.alloc (p1.1.read p1.2)
  (p2.1, ⟨p1.2, p2.2⟩)

/-- Typing into a line edit mutates only the dialog's `edits` object. -/
def setEditTextS (σ : PyStore) (d : DialogRefs) (k t : PyStr) : PyStore :=
  σ.write d.editsRef ((σ.read d.editsRef).map (fun p => if p.1 = k then (p.1, t) else p))

/-- `get_updated_keys` in the store model: builds and returns a new dict. -/
def getUpdatedKeysS (σ : PyStore) (d : DialogRefs) : PyStore × Nat :=
  σ.alloc (σ.read d.editsRef)

/-- A whole dialog session: construction, an arbitrary editing sequence,
then `get_updated_keys`. -/
def dialogSessionS (σ : PyStore) (fnKeysArg : Nat) (edits : List (PyStr × PyStr)) :
    PyStore × Nat :=
  let p := dialogInitS σ fnKeysArg
  let σ2 := edits.foldl (fun σ e => setEditTextS σ p.2 e.1 e.2) p.1
  getUpdatedKeysS σ2 p.2

/-! ## Helper lemmas -/

theorem char_toNat_valid (c : Char) :
    c.toNat < 0x110000 ∧ ¬(0xD800 ≤ c.toNat ∧ c.toNat ≤ 0xDFFF) := by
  have h := c.valid
  rcases h with h | ⟨h1, h2⟩
  · have hn : c.val.toNat < 0xd800 := UInt32.toNat_lt_of_lt (by norm_num) h
    unfold Char.toNat
    omega
  · have ha : (0xdfff : Nat) < c.val.toNat := UInt32.lt_toNat_of_lt (by norm_num) h1
    have hb : c.val.toNat < 0x110000 := UInt32.toNat_lt_of_lt (by norm_num) h2
    unfold Char.toNat
    omega

theorem lookup_of_mem_nodup (m : KeyDescriptionMap) (k d : PyStr)
    (hnd : (m.map Prod.fst).Nodup) (hmem : (k, d) ∈ m) :
    m.lookup k = some d := by
  induction m with
  | nil => cases hmem
  | cons hd tl ih =>
    simp only [List.map_cons, List.nodup_cons] at hnd
    rcases List.mem_cons.mp hmem with h | h
    · cases h
      simp [List.lookup_cons]
    · obtain ⟨k1, v1⟩ := hd
      have hk : k ≠ k1 := by
        intro he
        exact hnd.1 (by
          subst he
          simpa using List.mem_map_of_mem Prod.fst h)
      simp only [List.lookup_cons, beq_false_of_ne hk, cond_false]
      exact ih hnd.2 h

theorem lookup_map_pointwise (m : KeyDescriptionMap) (k d : PyStr) (g : PyStr → PyStr → PyStr)
    (hnd : (m.map Prod.fst).Nodup) (hmem : (k, d) ∈ m) :
    (m.map (fun p => (p.1, g p.1 p.2))).lookup k = some (g k d) := by
  have hnd' : ((m.map (fun p => (p.1, g p.1 p.2))).map Prod.fst).Nodup := by
    rw [List.map_map]
    simpa using hnd
  exact lookup_of_mem_nodup _ k (g k d) hnd'
    (by simpa using List.mem_map_of_mem (fun p => (p.1, g p.1 p.2)) hmem)

/-! ## Claim theorems -/

/-- C2: when no config file exists (and the config directory is creatable, as
`os.makedirs` requires), `load_fn_keys` returns exactly the hardcoded default
map: twelve entries, one per function key F1 through F12, with the documented
descriptions. -/
theorem load_defaults_when_file_missing (fs : FS)
    (hfile : fs.file = none) (hmk : fs.mkdirFails = false) :
    load_fn_keys fs = .ok (mapToJson default_keys) ∧
    default_keys.length = 12 ∧
    default_keys.map Prod.fst =
      ["F1".data, "F2".data, "F3".data, "F4".data, "F5".data, "F6".data,
       "F7".data, "F8".data, "F9".data, "F10".data, "F11".data, "F12".data] := by
  refine ⟨?_, rfl, rfl⟩
  simp [load_fn_keys, get_config_path, hmk, hfile]

/-- Witness for C2: a concrete filesystem with no config file. -/
theorem load_defaults_when_file_missing_witness :
    load_fn_keys ⟨none, false, false, false⟩ = .ok (mapToJson default_keys) ∧
    default_keys.length = 12 ∧
    default_keys.map Prod.fst =
      ["F1".data, "F2".data, "F3".data, "F4".data, "F5".data, "F6".data,
       "F7".data, "F8".data, "F9".data, "F10".data, "F11".data, "F12".data] :=
  load_defaults_when_file_missing ⟨none, false, false, false⟩ rfl rfl

/-- C3 counterexample: the file content `[]` is valid JSON that is not an
object; `json.load` succeeds on it, so `load_fn_keys` returns the parsed
list verbatim — not the twelve-entry default map. -/
theorem load_nonobject_not_defaulted :
    load_fn_keys ⟨some "[]".data, false, false, false⟩ = .ok (Json.arr []) ∧
    Json.arr [] ≠ mapToJson default_keys := by
  refine ⟨rfl, ?_⟩
  intro h
  exact Json.noConfusion h

/-- C3 (amended): only content on which the JSON parse raises is replaced by
the default map; syntactically valid JSON of any shape is returned as-is. -/
theorem load_parse_failure_defaults (fs : FS) (content : List Char)
    (hfile : fs.file = some content) (hmk : fs.mkdirFails = false)
    (hparse : json_loads content = none) :
    load_fn_keys fs = .ok (mapToJson default_keys) := by
  cases hr : fs.openReadFails <;>
    simp [load_fn_keys, get_config_path, hmk, hfile, hr, hparse]

/-- Witness for C3 (amended): a truncated file. -/
theorem load_parse_failure_defaults_witness :
    load_fn_keys ⟨some "\x7b\"F1\"".data, false, false, false⟩ =
      .ok (mapToJson default_keys) :=
  load_parse_failure_defaults ⟨some "\x7b\"F1\"".data, false, false, false⟩
    "\x7b\"F1\"".data rfl rfl rfl

/-- C10 counterexample: `get_config_path` runs `os.makedirs` outside any
`try`; on a filesystem where creating the config directory fails,
`load_fn_keys` raises instead of returning a value. -/
theorem load_raises_on_mkdir_failure :
    load_fn_keys ⟨none, false, false, true⟩ = .error PyErr.oserror := rfl

/-- C10 (amended): whenever creating the config directory succeeds,
`load_fn_keys` is total — the remaining fallible operations (`open` and the
JSON parse) sit inside the catch-all handler, which returns the default
map. -/
theorem load_total_when_mkdir_succeeds (fs : FS) (hmk : fs.mkdirFails = false) :
    ∃ v, load_fn_keys fs = .ok v := by
  obtain ⟨file, r, w, mk⟩ := fs
  simp only at hmk
  subst hmk
  cases file with
  | none => exact ⟨mapToJson default_keys, rfl⟩
  | some content =>
    cases r with
    | true => exact ⟨mapToJson default_keys, rfl⟩
    | false =>
      cases hp : json_loads content with
      | none =>
        exact ⟨mapToJson default_keys, by simp [load_fn_keys, get_config_path, hp]⟩
      | some v =>
        exact ⟨v, by simp [load_fn_keys, get_config_path, hp]⟩

/-- Witness for C10 (amended): an unreadable existing file still loads. -/
theorem load_total_when_mkdir_succeeds_witness :
    ∃ v, load_fn_keys ⟨some "garbage".data, true, false, false⟩ = .ok v :=
  load_total_when_mkdir_succeeds ⟨some "garbage".data, true, false, false⟩ rfl

/-- C8: `save_fn_keys` catches nothing — a failing `os.makedirs` or
`open(-, "w")` propagates as an error — and a successful save leaves the
file holding exactly `json.dump(fn_keys, -, indent=2)`, prior content
discarded wholesale. -/
theorem save_propagates_errors_and_overwrites (fs : FS) (m : KeyDescriptionMap) :
    ((fs.mkdirFails = true ∨ fs.openWriteFails = true) →
       save_fn_keys fs m = .error PyErr.oserror) ∧
    (fs.mkdirFails = false → fs.openWriteFails = false →
       save_fn_keys fs m = .ok { fs with file := some (json_dump m) }) := by
  obtain ⟨file, r, w, mk⟩ := fs
  cases mk <;> cases w <;>
    simp [save_fn_keys, get_config_path]

/-- Witness for C8: a write failure propagates; a clean write stores the
serialization. -/
theorem save_propagates_errors_and_overwrites_witness :
    save_fn_keys ⟨none, false, true, false⟩ default_keys = .error PyErr.oserror ∧
    save_fn_keys ⟨some "old".data, false, false, false⟩ default_keys =
      .ok ⟨some (json_dump default_keys), false, false, false⟩ :=
  ⟨(save_propagates_errors_and_overwrites ⟨none, false, true, false⟩ default_keys).1
     (Or.inr rfl),
   (save_propagates_errors_and_overwrites
     ⟨some "old".data, false, false, false⟩ default_keys).2 rfl rfl⟩

/-- C4: cancelling the settings dialog changes neither the window state nor
the filesystem, whatever editing happened inside the dialog; a subsequent
`load_fn_keys` sees the same filesystem as before. -/
theorem show_settings_cancel_is_noop (w : FnKeyWindow) (fs : FS)
    (edits : List (PyStr × PyStr)) :
    show_settings w fs false edits = .ok (w, fs) ∧
    (∀ w' fs', show_settings w fs false edits = .ok (w', fs') →
       load_fn_keys fs' = load_fn_keys fs) := by
  refine ⟨rfl, ?_⟩
  intro w' fs' h
  simp only [show_settings, if_neg Bool.false_ne_true] at h
  cases h
  rfl

/-- C7 counterexample: the row order is the loaded map's insertion order.
A stored file listing F2 before F1 parses to a map in that order, and the
window renders its rows in that same order — so two stored orders of the same
key set render differently, and no fixed canonical order exists. -/
theorem display_order_follows_stored_order :
    json_loads "\x7b\n  \"F2\": \"b\",\n  \"F1\": \"a\"\n\x7d".data =
      some (mapToJson [("F2".data, "b".data), ("F1".data, "a".data)]) ∧
    (windowInit [("F2".data, "b".data), ("F1".data, "a".data)]).key_labels.map Prod.fst =
      ["F2".data, "F1".data] ∧
    (windowInit [("F1".data, "a".data), ("F2".data, "b".data)]).key_labels.map Prod.fst =
      ["F1".data, "F2".data] ∧
    (["F2".data, "F1".data] : List PyStr) ≠ ["F1".data, "F2".data] := by
  refine ⟨rfl, rfl, rfl, ?_⟩
  decide

/-- C7 (amended): the rendered row order equals the loaded map's own
insertion order — the stored file's key order — not a fixed canonical list;
only when the defaults are in use (e.g. on first run) is it F1..F12. -/
theorem display_order_amended (m : KeyDescriptionMap) :
    (windowInit m).key_labels.map Prod.fst = m.map Prod.fst ∧
    (windowInit default_keys).key_labels.map Prod.fst =
      ["F1".data, "F2".data, "F3".data, "F4".data, "F5".data, "F6".data,
       "F7".data, "F8".data, "F9".data, "F10".data, "F11".data, "F12".data] := by
  constructor
  · simp only [windowInit, List.map_map]
    exact List.map_congr_left (fun p _ => rfl)
  · rfl

/-- C6: each key's row is the label `<b>key:</b> desc`, with the placeholder
text `(No function)` substituted when the description is the empty string —
at the initial render from map `m`, and again after `update_key_labels`
re-renders from a later map `m'` containing the key. -/
theorem labels_render_placeholder_for_empty (m m' : KeyDescriptionMap)
    (k d d' : PyStr)
    (hnd : (m.map Prod.fst).Nodup) (hmem : (k, d) ∈ m)
    (hnd' : (m'.map Prod.fst).Nodup) (hmem' : (k, d') ∈ m') :
    (windowInit m).key_labels.lookup k =
      some (if d ≠ [] then "<b>".data ++ k ++ ":</b> ".data ++ d
            else "<b>".data ++ k ++ ":</b> (No function)".data) ∧
    (update_key_labels (windowInit m).key_labels m').lookup k =
      some (if d' ≠ [] then "<b>".data ++ k ++ ":</b> ".data ++ d'
            else "<b>".data ++ k ++ ":</b> (No function)".data) := by
  constructor
  · have := lookup_map_pointwise m k d renderLabel hnd hmem
    simpa [windowInit, renderLabel] using this
  · have hlab : (update_key_labels (windowInit m).key_labels m') =
        m.map (fun p => (p.1, renderLabel p.1 (dictGetD m' p.1))) := by
      simp only [update_key_labels, windowInit, List.map_map]
      exact List.map_congr_left (fun p _ => rfl)
    rw [hlab]
    have := lookup_map_pointwise m k d (fun a _ => renderLabel a (dictGetD m' a)) hnd hmem
    have hget : dictGetD m' k = d' := by
      simp [dictGetD, lookup_of_mem_nodup m' k d' hnd' hmem']
    simpa [hget, renderLabel] using this

/-- Witness for C6: a map with an empty description renders the placeholder,
a non-empty one renders the description, before and after a re-render. -/
theorem labels_render_placeholder_for_empty_witness :
    (windowInit [("F1".data, "Dim".data), ("F3".data, [])]).key_labels.lookup "F3".data =
      some (if ([] : PyStr) ≠ [] then "<b>".data ++ "F3".data ++ ":</b> ".data ++ []
            else "<b>".data ++ "F3".data ++ ":</b> (No function)".data) ∧
    (update_key_labels
        (windowInit [("F1".data, "Dim".data), ("F3".data, [])]).key_labels
        [("F1".data, "Dim".data), ("F3".data, "Mic".data)]).lookup "F3".data =
      some (if ("Mic".data : PyStr) ≠ [] then "<b>".data ++ "F3".data ++ ":</b> ".data ++ "Mic".data
            else "<b>".data ++ "F3".data ++ ":</b> (No function)".data) :=
  labels_render_placeholder_for_empty
    [("F1".data, "Dim".data), ("F3".data, [])]
    [("F1".data, "Dim".data), ("F3".data, "Mic".data)]
    "F3".data [] "Mic".data
    (by decide) (by decide) (by decide) (by decide)

/-- C5: confirming the dialog returns a map over exactly the input's key set
(in the same order); with no edits it returns the input map itself; after
editing a single field `k` to text `t`, every pair at another key is
unchanged and the result maps `k` to `t`. -/
theorem dialog_confirm_updates_only_edited_field (m : KeyDescriptionMap)
    (k t : PyStr)
    (hnd : (m.map Prod.fst).Nodup) (hk : k ∈ m.map Prod.fst) :
    get_updated_keys (SettingsDialog.init m) = m ∧
    (get_updated_keys (setEditText (SettingsDialog.init m) k t)).map Prod.fst =
      m.map Prod.fst ∧
    (∀ p ∈ m, p.1 ≠ k →
       p ∈ get_updated_keys (setEditText (SettingsDialog.init m) k t)) ∧
    (get_updated_keys (setEditText (SettingsDialog.init m) k t)).lookup k = some t := by
  refine ⟨rfl, ?_, ?_, ?_⟩
  · simp only [get_updated_keys, setEditText, SettingsDialog.init, List.map_map]
    refine List.map_congr_left (fun p _ => ?_)
    by_cases h : p.1 = k <;> simp [h]
  · intro p hp hne
    have : (if p.1 = k then (p.1, t) else p) ∈
        (m.map (fun q => if q.1 = k then (q.1, t) else q)) :=
      List.mem_map_of_mem _ hp
    simpa [get_updated_keys, setEditText, SettingsDialog.init, if_neg hne] using this
  · obtain ⟨p, hp, rfl⟩ := List.mem_map.mp hk
    have heq : (m.map (fun q => if q.1 = p.1 then (q.1, t) else q)) =
        m.map (fun q => (q.1, if q.1 = p.1 then t else q.2)) := by
      refine List.map_congr_left (fun q _ => ?_)
      by_cases h : q.1 = p.1 <;> simp [h]
    have := lookup_map_pointwise m p.1 p.2 (fun a b => if a = p.1 then t else b) hnd
      (by simpa using hp)
    simp only [get_updated_keys, setEditText, SettingsDialog.init]
    rw [heq, this]
    simp

/-- Witness for C5: editing F3 in the default map changes only F3. -/
theorem dialog_confirm_updates_only_edited_field_witness :
    get_updated_keys (SettingsDialog.init default_keys) = default_keys ∧
    (get_updated_keys (setEditText (SettingsDialog.init default_keys)
        "F3".data "Calculator".data)).map Prod.fst = default_keys.map Prod.fst ∧
    (∀ p ∈ default_keys, p.1 ≠ "F3".data →
       p ∈ get_updated_keys (setEditText (SettingsDialog.init default_keys)
             "F3".data "Calculator".data)) ∧
    (get_updated_keys (setEditText (SettingsDialog.init default_keys)
        "F3".data "Calculator".data)).lookup "F3".data = some "Calculator".data :=
  dialog_confirm_updates_only_edited_field default_keys "F3".data "Calculator".data
    (by decide) (by decide)

/-! ## Store lemmas for the aliasing claim -/

theorem read_alloc_of_lt (σ : PyStore) (m : KeyDescriptionMap) (r : Nat)
    (h : r < σ.dicts.length) : (σ.alloc m).1.read r = σ.read r := by
  simp only [PyStore.alloc, PyStore.read, List.getD_eq_getElem?_getD]
  rw [List.getElem?_append_left h]

theorem read_write_of_ne (σ : PyStore) (i r : Nat) (m : KeyDescriptionMap)
    (h : i ≠ r) : (σ.write i m).read r = σ.read r := by
  simp only [PyStore.write, PyStore.read, List.getD_eq_getElem?_getD]
  rw [List.getElem?_set_ne h]

theorem write_length (σ : PyStore) (i : Nat) (m : KeyDescriptionMap) :
    (σ.write i m).dicts.length = σ.dicts.length := by
  simp [PyStore.write]

theorem foldl_setEditTextS_read (edits : List (PyStr × PyStr)) (d : DialogRefs)
    (σ : PyStore) (r : Nat) (h : d.editsRef ≠ r) :
    (edits.foldl (fun σ e => setEditTextS σ d e.1 e.2) σ).read r = σ.read r := by
  induction edits generalizing σ with
  | nil => rfl
  | cons e tl ih =>
    rw [List.foldl_cons, ih]
    exact read_write_of_ne _ _ _ _ h

theorem foldl_setEditTextS_length (edits : List (PyStr × PyStr)) (d : DialogRefs)
    (σ : PyStore) :
    (edits.foldl (fun σ e => setEditTextS σ d e.1 e.2) σ).dicts.length =
      σ.dicts.length := by
  induction edits generalizing σ with
  | nil => rfl
  | cons e tl ih =>
    rw [List.foldl_cons, ih]
    exact write_length _ _ _

/-- C9: a full dialog session — construction from the caller's dict (which
`SettingsDialog.__init__` copies), any sequence of text edits, then
`get_updated_keys` — never writes through the caller's reference: the
caller's dict afterwards is what it was before. -/
theorem dialog_session_never_mutates_caller (σ : PyStore) (r : Nat)
    (edits : List (PyStr × PyStr)) (hr : r < σ.dicts.length) :
    (dialogSessionS σ r edits).1.read r = σ.read r := by
  unfold dialogSessionS getUpdatedKeysS
  unfold dialogInitS
  simp only
  have h1 : ((σ.alloc (σ.read r)).1.alloc ((σ.alloc (σ.read r)).1.read
      (σ.alloc (σ.read r)).2)).2 = σ.dicts.length + 1 := by
    simp [PyStore.alloc]
  have hlen2 : ((σ.alloc (σ.read r)).1.alloc ((σ.alloc (σ.read r)).1.read
      (σ.alloc (σ.read r)).2)).1.dicts.length = σ.dicts.length + 2 := by
    simp [PyStore.alloc]
  rw [read_alloc_of_lt]
  · rw [foldl_setEditTextS_read]
    · rw [read_alloc_of_lt _ _ _ (by simp [PyStore.alloc]; omega)]
      exact read_alloc_of_lt _ _ _ hr
    · simp only [h1]
      omega
  · rw [foldl_setEditTextS_length, hlen2]
    omega

/-- Witness for C9: a one-dict store, the dialog seeded from it, one edit. -/
theorem dialog_session_never_mutates_caller_witness :
    (dialogSessionS ⟨[default_keys]⟩ 0 [("F1".data, "Edited".data)]).1.read 0 =
      PyStore.read ⟨[default_keys]⟩ 0 :=
  dialog_session_never_mutates_caller ⟨[default_keys]⟩ 0
    [("F1".data, "Edited".data)] (by decide)

/-! ## Round-trip lemmas: hex digits -/

theorem hexVal_hexDigitChar (n : Nat) (h : n < 16) :
    hexVal (hexDigitChar n) = some n := by
  interval_cases n <;> decide

theorem parseHex4_hex4 (n : Nat) (h : n < 65536) (rest : List Char) :
    parseHex4 (hex4 n ++ rest) = some (n, rest) := by
  have h1 : n / 4096 % 16 < 16 := Nat.mod_lt _ (by norm_num)
  have h2 : n / 256 % 16 < 16 := Nat.mod_lt _ (by norm_num)
  have h3 : n / 16 % 16 < 16 := Nat.mod_lt _ (by norm_num)
  have h4 : n % 16 < 16 := Nat.mod_lt _ (by norm_num)
  simp only [hex4, List.cons_append, List.nil_append, parseHex4,
    hexVal_hexDigitChar _ h1, hexVal_hexDigitChar _ h2,
    hexVal_hexDigitChar _ h3, hexVal_hexDigitChar _ h4]
  congr 1
  congr 1
  omega

/-! ## Round-trip lemmas: one escaped character -/

theorem parseStringBody_quote (fuel : Nat) (rest : List Char) :
    parseStringBody (fuel + 1) ('"' :: rest) = some ([], rest) := by
  simp [parseStringBody]

theorem parseStringBody_backslash (fuel : Nat) (e : Char) (rest' : List Char) :
    parseStringBody (fuel + 1) ('\\' :: e :: rest') =
      match decodeEscape e rest' with
      | none => none
      | some (ch, r) => (parseStringBody fuel r).map (fun p => (ch :: p.1, p.2)) := by
  simp [parseStringBody]

theorem parseStringBody_plain (fuel : Nat) (c : Char) (rest : List Char)
    (h1 : c ≠ '"') (h2 : c ≠ '\\') (h3 : ¬c.toNat < 0x20) :
    parseStringBody (fuel + 1) (c :: rest) =
      (parseStringBody fuel rest).map (fun p => (c :: p.1, p.2)) := by
  rw [parseStringBody.eq_def]
  simp only [if_neg h1, if_neg h2, if_neg h3]

theorem decodeEscape_u (n : Nat) (h : n < 65536)
    (hs : ¬(0xD800 ≤ n ∧ n ≤ 0xDFFF)) (rest : List Char) :
    decodeEscape 'u' (hex4 n ++ rest) = some (Char.ofNat n, rest) := by
  have hc1 : ¬(55296 ≤ n ∧ n ≤ 56319) := by omega
  have hc2 : ¬(56320 ≤ n ∧ n ≤ 57343) := by omega
  simp [decodeEscape, parseHex4_hex4 _ h, hc1, hc2]

theorem decodeEscape_u_pair (hi lo : Nat)
    (hhi : 0xD800 ≤ hi ∧ hi ≤ 0xDBFF) (hhi' : hi < 65536)
    (hlo : 0xDC00 ≤ lo ∧ lo ≤ 0xDFFF) (hlo' : lo < 65536) (rest : List Char) :
    decodeEscape 'u' (hex4 hi ++ '\\' :: 'u' :: (hex4 lo ++ rest)) =
      some (Char.ofNat (0x10000 + (hi - 0xD800) * 0x400 + (lo - 0xDC00)), rest) := by
  obtain ⟨ha, hb⟩ := hhi
  obtain ⟨hc, hd⟩ := hlo
  simp [decodeEscape, parseHex4_hex4 _ hhi', parseHex4_hex4 _ hlo', ha, hb, hc, hd]

theorem parseStringBody_cons (c : Char) (rest : List Char) (fuel : Nat) :
    parseStringBody (fuel + 1) (escapeChar c ++ rest) =
      (parseStringBody fuel rest).map (fun p => (c :: p.1, p.2)) := by
  have hv := char_toNat_valid c
  by_cases h1 : c = '"'
  · subst h1
    rw [show escapeChar '"' ++ rest = '\\' :: '"' :: rest from rfl,
      parseStringBody_backslash]
    simp [decodeEscape]
  by_cases h2 : c = '\\'
  · subst h2
    rw [show escapeChar '\\' ++ rest = '\\' :: '\\' :: rest from rfl,
      parseStringBody_backslash]
    simp [decodeEscape]
  by_cases h3 : c = '\x08'
  · subst h3
    rw [show escapeChar '\x08' ++ rest = '\\' :: 'b' :: rest from rfl,
      parseStringBody_backslash]
    simp [decodeEscape]
  by_cases h4 : c = '\x09'
  · subst h4
    rw [show escapeChar '\x09' ++ rest = '\\' :: 't' :: rest from rfl,
      parseStringBody_backslash]
    simp [decodeEscape]
  by_cases h5 : c = '\x0a'
  · subst h5
    rw [show escapeChar '\x0a' ++ rest = '\\' :: 'n' :: rest from rfl,
      parseStringBody_backslash]
    simp [decodeEscape]
  by_cases h6 : c = '\x0c'
  · subst h6
    rw [show escapeChar '\x0c' ++ rest = '\\' :: 'f' :: rest from rfl,
      parseStringBody_backslash]
    simp [decodeEscape]
  by_cases h7 : c = '\x0d'
  · subst h7
    rw [show escapeChar '\x0d' ++ rest = '\\' :: 'r' :: rest from rfl,
      parseStringBody_backslash]
    simp [decodeEscape]
  by_cases h8 : c.toNat < 0x20
  · have hesc : escapeChar c = uEscape c.toNat := by
      rw [escapeChar, if_neg h1, if_neg h2, if_neg h3, if_neg h4, if_neg h5,
        if_neg h6, if_neg h7, if_pos h8]
    rw [hesc]
    simp only [uEscape, List.cons_append]
    rw [parseStringBody_backslash,
      decodeEscape_u c.toNat (by omega) (by omega) rest, Char.ofNat_toNat]
  by_cases h9 : c.toNat < 0x7f
  · have hesc : escapeChar c = [c] := by
      rw [escapeChar, if_neg h1, if_neg h2, if_neg h3, if_neg h4, if_neg h5,
        if_neg h6, if_neg h7, if_neg h8, if_pos h9]
    rw [hesc, List.singleton_append, parseStringBody_plain _ _ _ h1 h2 h8]
  by_cases h10 : c.toNat < 0x10000
  · have hesc : escapeChar c = uEscape c.toNat := by
      rw [escapeChar, if_neg h1, if_neg h2, if_neg h3, if_neg h4, if_neg h5,
        if_neg h6, if_neg h7, if_neg h8, if_neg h9, if_pos h10]
    rw [hesc]
    simp only [uEscape, List.cons_append]
    rw [parseStringBody_backslash,
      decodeEscape_u c.toNat h10 (by omega) rest, Char.ofNat_toNat]
  · have hesc : escapeChar c = uEscape (0xD800 + (c.toNat - 0x10000) / 0x400) ++
        uEscape (0xDC00 + (c.toNat - 0x10000) % 0x400) := by
      rw [escapeChar, if_neg h1, if_neg h2, if_neg h3, if_neg h4, if_neg h5,
        if_neg h6, if_neg h7, if_neg h8, if_neg h9, if_neg h10]
    have hm := Nat.mod_lt (c.toNat - 0x10000) (show 0 < 0x400 by norm_num)
    have hd : (c.toNat - 0x10000) / 0x400 < 0x400 := by
      have h1114 : c.toNat < 0x110000 := hv.1
      omega
    rw [hesc]
    simp only [uEscape, List.cons_append, List.append_assoc]
    rw [parseStringBody_backslash,
      decodeEscape_u_pair (0xD800 + (c.toNat - 0x10000) / 0x400)
        (0xDC00 + (c.toNat - 0x10000) % 0x400)
        ⟨by omega, by omega⟩ (by omega) ⟨by omega, by omega⟩ (by omega) rest]
    have harith : 0x10000 + (0xD800 + (c.toNat - 0x10000) / 0x400 - 0xD800) * 0x400 +
        (0xDC00 + (c.toNat - 0x10000) % 0x400 - 0xDC00) = c.toNat := by
      have hdm := Nat.div_add_mod (c.toNat - 0x10000) 0x400
      omega
    rw [harith, Char.ofNat_toNat]

/-! ## Round-trip lemmas: whole string literals -/

theorem parseStringBody_escaped (s : PyStr) (k : Nat) (rest : List Char) :
    parseStringBody (s.length + 1 + k) (s.flatMap escapeChar ++ '"' :: rest) =
      some (s, rest) := by
  induction s with
  | nil =>
    simp only [List.flatMap_nil, List.nil_append, List.length_nil, Nat.zero_add]
    rw [Nat.add_comm 1 k]
    exact parseStringBody_quote k rest
  | cons c tl ih =>
    have hlen : (c :: tl).length + 1 + k = (tl.length + 1 + k) + 1 := by
      simp [List.length_cons]
      omega
    rw [hlen, List.flatMap_cons, List.append_assoc, parseStringBody_cons, ih]
    rfl

theorem escapeChar_length_pos (c : Char) : 0 < (escapeChar c).length := by
  rw [escapeChar]
  repeat' split
  all_goals simp [uEscape, hex4]

theorem length_le_length_flatMap_escapeChar (s : PyStr) :
    s.length ≤ (s.flatMap escapeChar).length := by
  induction s with
  | nil => simp
  | cons c tl ih =>
    rw [List.flatMap_cons, List.length_append, List.length_cons]
    have := escapeChar_length_pos c
    omega

theorem parseStringBody_escaped_le (s : PyStr) (fuel : Nat) (rest : List Char)
    (h : s.length + 1 ≤ fuel) :
    parseStringBody fuel (s.flatMap escapeChar ++ '"' :: rest) = some (s, rest) := by
  obtain ⟨k, rfl⟩ := Nat.exists_eq_add_of_le h
  exact parseStringBody_escaped s k rest

theorem parseStringBody_escaped_self (s : PyStr) (rest : List Char) :
    parseStringBody (s.flatMap escapeChar ++ '"' :: rest).length
      (s.flatMap escapeChar ++ '"' :: rest) = some (s, rest) := by
  refine parseStringBody_escaped_le s _ rest ?_
  rw [List.length_append, List.length_cons]
  have := length_le_length_flatMap_escapeChar s
  omega

/-! ## Round-trip lemmas: whitespace and literal fragments -/

theorem skipWs_space (s : List Char) : skipWs (' ' :: s) = skipWs s := by
  simp [skipWs, isWsChar]

theorem skipWs_newline (s : List Char) : skipWs ('\n' :: s) = skipWs s := by
  simp [skipWs, isWsChar]

theorem skipWs_quote (s : List Char) : skipWs ('"' :: s) = '"' :: s := by
  simp [skipWs, isWsChar]

theorem skipWs_colon (s : List Char) : skipWs (':' :: s) = ':' :: s := by
  simp [skipWs, isWsChar]

theorem skipWs_comma (s : List Char) : skipWs (',' :: s) = ',' :: s := by
  simp [skipWs, isWsChar]

theorem skipWs_closebrace (s : List Char) : skipWs ('}' :: s) = '}' :: s := by
  simp [skipWs, isWsChar]

theorem skipWs_openbrace (s : List Char) : skipWs ('{' :: s) = '{' :: s := by
  simp [skipWs, isWsChar]

theorem dataSpc2 : "  ".data = [' ', ' '] := rfl

theorem dataColonSpc : ": ".data = [':', ' '] := rfl

theorem dataCommaNl : ",\n".data = [',', '\n'] := rfl

theorem dataBraceNl : "\x7b\n".data = ['{', '\n'] := rfl

theorem dataNlBrace : "\n\x7d".data = ['\n', '}'] := rfl

/-! ## Round-trip lemmas: values and members -/

theorem parseValue_string (g : Nat) (v : PyStr) (s T : List Char)
    (hs : skipWs s = '"' :: (v.flatMap escapeChar ++ '"' :: T)) :
    parseValue (g + 1) s = some (Json.str v, T) := by
  rw [parseValue.eq_def]
  simp [hs]
  have := length_le_length_flatMap_escapeChar v
  rw [List.length_flatMap] at this
  exact parseStringBody_escaped_le v _ T (by omega)

theorem parseMembers_cons_ws (f : Nat) (c : Char) (hc : isWsChar c = true)
    (s : List Char) : parseMembers f (c :: s) = parseMembers f s := by
  cases f with
  | zero => rfl
  | succ f =>
    have h2 : skipWs (c :: s) = skipWs s := by simp [skipWs, hc]
    simp only [parseMembers]
    rw [h2]

theorem parseMembers_dumpEntries (tl : KeyDescriptionMap) (hd : PyStr × PyStr)
    (k : Nat) (rest : List Char) :
    parseMembers ((tl.length + 1 + k) + 1)
        (dumpEntries (hd :: tl) ++ '\n' :: '}' :: rest) =
      some ((hd :: tl).map (fun p => (p.1, Json.str p.2)), rest) := by
  induction tl generalizing hd with
  | nil =>
    obtain ⟨k1, v1⟩ := hd
    rw [parseMembers.eq_def]
    simp only [dumpEntries, escapeString, dataSpc2, dataColonSpc, List.cons_append,
      List.nil_append, List.append_assoc, List.singleton_append, List.length_nil,
      skipWs_space, skipWs_quote]
    simp only [Nat.zero_add]
    rw [parseStringBody_escaped_self]
    simp only [skipWs_colon]
    rw [show (0 : Nat) + 1 + k = k + 1 from by omega]
    rw [parseValue_string k v1 _ ('\n' :: '}' :: rest)
      (by simp [skipWs_space, skipWs_quote])]
    simp only [skipWs_newline, skipWs_closebrace, List.map_cons, List.map_nil]
  | cons hd2 tl2 ih =>
    obtain ⟨k1, v1⟩ := hd
    rw [parseMembers.eq_def]
    simp only [dumpEntries, escapeString, dataSpc2, dataColonSpc, dataCommaNl,
      List.cons_append, List.nil_append, List.append_assoc, List.singleton_append,
      List.length_cons, skipWs_space, skipWs_quote]
    rw [parseStringBody_escaped_self]
    simp only [skipWs_colon]
    rw [show tl2.length + 1 + 1 + k = (tl2.length + 1 + k) + 1 from by omega]
    rw [parseValue_string (tl2.length + 1 + k) v1 _
      (',' :: '\n' :: (dumpEntries (hd2 :: tl2) ++ '\n' :: '}' :: rest))
      (by simp [skipWs_space, skipWs_quote])]
    simp only [skipWs_comma]
    rw [parseMembers_cons_ws _ '\n' (by decide)]
    rw [ih hd2]
    simp

/-! ## Round-trip lemmas: duplicate-key collapse is the identity here -/

theorem dictInsert_of_not_mem (m : List (PyStr × Json)) (k : PyStr) (v : Json)
    (h : k ∉ m.map Prod.fst) : dictInsert m k v = m ++ [(k, v)] := by
  induction m with
  | nil => rfl
  | cons hd tl ih =>
    obtain ⟨k1, v1⟩ := hd
    simp only [List.map_cons, List.mem_cons, not_or] at h
    rw [dictInsert]
    rw [if_neg (fun he => h.1 he.symm)]
    rw [ih h.2]
    simp

theorem foldl_dictInsert_nodup (pairs : List (PyStr × Json)) :
    ∀ acc : List (PyStr × Json),
      (acc.map Prod.fst ++ pairs.map Prod.fst).Nodup →
      pairs.foldl (fun a p => dictInsert a p.1 p.2) acc = acc ++ pairs := by
  induction pairs with
  | nil =>
    intro acc _
    simp
  | cons hd tl ih =>
    intro acc h
    obtain ⟨k1, v1⟩ := hd
    simp only [List.map_cons] at h
    have hsplit := List.nodup_append.mp h
    have hnot : k1 ∉ acc.map Prod.fst :=
      fun hmem => (hsplit.2.2 hmem) (List.mem_cons_self _ _)
    rw [List.foldl_cons]
    rw [show dictInsert acc (k1, v1).1 (k1, v1).2 = acc ++ [(k1, v1)] from
      dictInsert_of_not_mem acc k1 v1 hnot]
    rw [ih (acc ++ [(k1, v1)]) (by
      simp only [List.map_append, List.map_cons, List.map_nil, List.append_assoc,
        List.singleton_append]
      exact h)]
    simp

theorem mkObj_nodup (pairs : List (PyStr × Json))
    (h : (pairs.map Prod.fst).Nodup) : mkObj pairs = Json.obj pairs := by
  rw [mkObj, foldl_dictInsert_nodup pairs [] (by simpa using h)]
  simp

theorem length_dumpEntries_ge (m : KeyDescriptionMap) :
    m.length ≤ (dumpEntries m).length := by
  induction m with
  | nil => simp [dumpEntries]
  | cons hd tl ih =>
    obtain ⟨k1, v1⟩ := hd
    cases tl with
    | nil =>
      simp [dumpEntries, escapeString, dataSpc2, dataColonSpc]
    | cons hd2 tl2 =>
      simp only [dumpEntries, escapeString, dataSpc2, dataColonSpc, dataCommaNl,
        List.length_append, List.length_cons] at ih ⊢
      omega

theorem parseValue_dumped (hd : PyStr × PyStr) (tl : KeyDescriptionMap) (g : Nat)
    (hg : tl.length + 2 ≤ g) (rest : List Char) :
    parseValue (g + 1)
        ('{' :: '\n' :: (dumpEntries (hd :: tl) ++ '\n' :: '}' :: rest)) =
      some (mkObj ((hd :: tl).map (fun p => (p.1, Json.str p.2))), rest) := by
  obtain ⟨k1, v1⟩ := hd
  have hT : ∃ T, skipWs ('\n' :: (dumpEntries ((k1, v1) :: tl) ++ '\n' :: '}' :: rest)) =
      '"' :: T := by
    cases tl <;>
      simp [dumpEntries, escapeString, dataSpc2, dataColonSpc, dataCommaNl,
        skipWs_newline, skipWs_space, skipWs_quote, List.append_assoc]
  obtain ⟨T, hT⟩ := hT
  simp only [parseValue]
  rw [skipWs_openbrace]
  simp only [if_pos rfl]
  rw [hT]
  rw [parseMembers_cons_ws _ '\n' (by decide)]
  obtain ⟨k, hk⟩ : ∃ k, g = (tl.length + 1 + k) + 1 :=
    ⟨g - tl.length - 2, by omega⟩
  rw [hk, parseMembers_dumpEntries tl (k1, v1) k rest]
  rfl

/-- The heart of the save/load round trip: parsing the exact text
`json.dump(m, -, indent=2)` writes recovers `m`, for every dict `m` (keys
unique, as dict semantics guarantee). -/
theorem json_loads_json_dump (m : KeyDescriptionMap)
    (hnd : (m.map Prod.fst).Nodup) :
    json_loads (json_dump m) = some (mapToJson m) := by
  cases m with
  | nil => rfl
  | cons hd tl =>
    have hdump : json_dump (hd :: tl) =
        '{' :: '\n' :: (dumpEntries (hd :: tl) ++ '\n' :: '}' :: []) := by
      simp [json_dump, dataBraceNl, dataNlBrace]
    rw [hdump]
    unfold json_loads
    have hlen := length_dumpEntries_ge (hd :: tl)
    simp only [List.length_cons] at hlen
    rw [parseValue_dumped hd tl _ (by
      simp only [List.length_cons, List.length_append]
      omega) []]
    rw [mkObj_nodup _ (by
      rw [List.map_map]
      simpa using hnd)]
    simp [mapToJson, skipWs]

/-- C1: for every KeyDescriptionMap (unique keys, any key set, any insertion
order) on a writable filesystem, `save_fn_keys` succeeds and a subsequent
`load_fn_keys` returns exactly the saved map. -/
theorem save_then_load_roundtrip (fs : FS) (m : KeyDescriptionMap)
    (hnd : (m.map Prod.fst).Nodup)
    (hmk : fs.mkdirFails = false) (hw : fs.openWriteFails = false)
    (hr : fs.openReadFails = false) :
    ∃ fs', save_fn_keys fs m = .ok fs' ∧
      load_fn_keys fs' = .ok (mapToJson m) := by
  refine ⟨{ fs with file := some (json_dump m) }, ?_, ?_⟩
  · simp [save_fn_keys, get_config_path, hmk, hw]
  · simp [load_fn_keys, get_config_path, hmk, hr, json_loads_json_dump m hnd]

/-- Witness for C1: the spec's own scenario, `{"F1": "Dim", "F2": "Bright"}`,
saved and reloaded on an initially empty filesystem. -/
theorem save_then_load_roundtrip_witness :
    ∃ fs', save_fn_keys ⟨none, false, false, false⟩
        [("F1".data, "Dim".data), ("F2".data, "Bright".data)] = .ok fs' ∧
      load_fn_keys fs' =
        .ok (mapToJson [("F1".data, "Dim".data), ("F2".data, "Bright".data)]) :=
  save_then_load_roundtrip ⟨none, false, false, false⟩
    [("F1".data, "Dim".data), ("F2".data, "Bright".data)]
    (by decide) rfl rfl rfl
